import Mathlib

/-!
# Verification of the MikoJSCore engine against its specification

A shallow embedding, in Lean 4, of the parts of the MikoJSCore C sources
that the specification's claims speak about:

* the tagged value model and its coercions (`src/runtime.c`),
* string management and interning (the string-management translation unit),
* the object property chain (the object-management translation unit),
* the stack-based VM and its bytecode (`vm.c` / `vm.h`),
* the bytecode compiler (`src/compiler.c`),
* the mark phase, sweep phase and weak references of the garbage
  collector (the GC translation unit).

IEEE-754 doubles are idealised as `MDouble`: NaN, the two infinities and
exact rationals in place of finite doubles.  None of the claims checked
here depends on rounding, so this idealisation is faithful for every
statement below.  Heap pointers are idealised as natural-number
references; `NULL` becomes `Option.none`.  C functions that report
failure through a `bool` or a null return are embedded with `Option`.
-/

namespace MikoJS

/-! ## Doubles, idealised -/

/-- Idealised IEEE-754 double: NaN, infinities, and exact rationals for
finite values.  Signed zero is collapsed to `0`; no claim observes it. -/
inductive MDouble where
  | nan : MDouble
  | posInf : MDouble
  | negInf : MDouble
  | finite : ℚ → MDouble
deriving DecidableEq, Repr

/-- C `+` on doubles: NaN propagates, opposite infinities give NaN,
finite addition is exact (rounding is abstracted away). -/
def MDouble.add : MDouble → MDouble → MDouble
  | .nan, _ => .nan
  | _, .nan => .nan
  | .posInf, .negInf => .nan
  | .negInf, .posInf => .nan
  | .posInf, _ => .posInf
  | _, .posInf => .posInf
  | .negInf, _ => .negInf
  | _, .negInf => .negInf
  | .finite a, .finite b => .finite (a + b)

/-- C `-` (unary) on doubles. -/
def MDouble.neg : MDouble → MDouble
  | .nan => .nan
  | .posInf => .negInf
  | .negInf => .posInf
  | .finite a => .finite (-a)

/-- C `==` on doubles: false whenever either side is NaN, payload
comparison otherwise. -/
def MDouble.ceq : MDouble → MDouble → Bool
  | .nan, _ => false
  | _, .nan => false
  | .posInf, .posInf => true
  | .negInf, .negInf => true
  | .finite a, .finite b => a == b
  | _, _ => false

/-- `printf "%.15g"` rendering, abstracted: exact for the special values
and for integers; other rationals are rendered as fractions.  No claim
observes this branch, the VM only ever discards or stores the text. -/
def MDouble.toDisplay : MDouble → String
  | .nan => "nan"
  | .posInf => "inf"
  | .negInf => "-inf"
  | .finite q =>
    if q.den = 1 then toString q.num
    else toString q.num ++ "/" ++ toString q.den

/-! ## Tagged values (`mjs_value_t`, `mikojs_internal.h`) -/

/-- `mjs_value_t`: the tag together with the payload of its union arm.
Heap strings are embedded by their byte data (the VM never distinguishes
two string objects with equal bytes); objects, functions and arrays are
embedded by a heap reference, i.e. the pointer identity that matters for
`vm_equals`. -/
inductive MValue where
  | undefined : MValue
  | null : MValue
  | boolean : Bool → MValue
  | number : MDouble → MValue
  | string : String → MValue
  | object : Nat → MValue
  | function : Nat → MValue
  | array : Nat → MValue
  | bigint : MValue
  | symbol : MValue
deriving DecidableEq, Repr

/-- `mjs_value_type_t`. -/
inductive MType where
  | undefined | null | boolean | number | string
  | object | function | array | bigint | symbol
deriving DecidableEq, Repr

/-- `mjs_get_type` (`src/runtime.c`). -/
def mjs_get_type : MValue → MType
  | .undefined => .undefined
  | .null => .null
  | .boolean _ => .boolean
  | .number _ => .number
  | .string _ => .string
  | .object _ => .object
  | .function _ => .function
  | .array _ => .array
  | .bigint => .bigint
  | .symbol => .symbol

/-- `mjs_is_string`. -/
def mjs_is_string : MValue → Bool
  | .string _ => true
  | _ => false

/-- `mjs_is_object`. -/
def mjs_is_object : MValue → Bool
  | .object _ => true
  | _ => false

/-- `mjs_is_array`. -/
def mjs_is_array : MValue → Bool
  | .array _ => true
  | _ => false

/-- `mjs_is_function`. -/
def mjs_is_function : MValue → Bool
  | .function _ => true
  | _ => false

/-- `mjs_get_boolean`: payload for boolean tags, `false` otherwise. -/
def mjs_get_boolean : MValue → Bool
  | .boolean b => b
  | _ => false

/-- `mjs_get_number`: payload for number tags, `0.0` otherwise. -/
def mjs_get_number : MValue → MDouble
  | .number n => n
  | _ => .finite 0

/-- `mjs_get_string`: the string payload for string tags, `NULL`
otherwise. -/
def mjs_get_string : MValue → Option String
  | .string s => some s
  | _ => none

/-- `mjs_get_object` (`src/runtime.c:319`): the object payload for
values whose tag is `MJS_TAG_OBJECT`, and `NULL` for every other tag —
including arrays and functions. -/
def mjs_get_object : MValue → Option Nat
  | .object r => some r
  | _ => none

/-! ## `strtod`, modelled

The C library's `strtod` as used by `mjs_to_number` and
`mjs_string_to_number`: skip leading whitespace, optional sign, then an
infinity token, a NaN token, or a decimal mantissa with optional
exponent.  Hexadecimal floats are not modelled; no MikoJS caller and no
claim exercises them.  The scanner returns the parsed value together
with the unconsumed suffix; when no conversion is possible it returns
`0.0` with the whole original input (the C `endptr == nptr` contract). -/

/-- C `isspace` in the default locale. -/
def isSpaceChar (c : Char) : Bool :=
  c.toNat = 32 || c.toNat = 9 || c.toNat = 10 ||
  c.toNat = 11 || c.toNat = 12 || c.toNat = 13

/-- Case-insensitive literal match; the pattern is given in lowercase.
Returns the rest of the input on success. -/
def matchCI : List Char → List Char → Option (List Char)
  | [], cs => some cs
  | _ :: _, [] => none
  | p :: ps, c :: cs => if c.toLower = p then matchCI ps cs else none

/-- Value of a digit string, most significant first. -/
def digitsToNat (ds : List Char) : Nat :=
  ds.foldl (fun acc c => acc * 10 + (c.toNat - 48)) 0

/-- Split off a maximal run of decimal digits. -/
def spanDigits (cs : List Char) : List Char × List Char :=
  (cs.takeWhile Char.isDigit, cs.dropWhile Char.isDigit)

/-- Optional exponent part `e[+-]digits`; not consumed unless at least
one digit follows the marker. -/
def scanExp (cs : List Char) : Int × List Char :=
  match cs with
  | [] => (0, [])
  | c :: rest =>
    if c = 'e' || c = 'E' then
      let (sgn, rest2) : Int × List Char :=
        match rest with
        | '+' :: rs => (1, rs)
        | '-' :: rs => (-1, rs)
        | _ => (1, rest)
      let (ds, rest3) := spanDigits rest2
      if ds.isEmpty then (0, c :: rest) else (sgn * digitsToNat ds, rest3)
    else (0, c :: rest)

/-- The magnitude scanner: input is positioned after the optional sign. -/
def strtodScanMag (cs : List Char) : Option (MDouble × List Char) :=
  match matchCI "infinity".data cs with
  | some rest => some (.posInf, rest)
  | none =>
  match matchCI "inf".data cs with
  | some rest => some (.posInf, rest)
  | none =>
  match matchCI "nan".data cs with
  | some rest => some (.nan, rest)
  | none =>
    let (ip, r1) := spanDigits cs
    let (fp, r2) : List Char × List Char :=
      match r1 with
      | '.' :: rs => spanDigits rs
      | _ => ([], r1)
    if ip.isEmpty && fp.isEmpty then none
    else
      let mantissa : ℚ :=
        (digitsToNat ip : ℚ) + (digitsToNat fp : ℚ) / ((10 : ℚ) ^ fp.length)
      let (e, r3) := scanExp r2
      some (.finite (mantissa * (10 : ℚ) ^ e), r3)

/-- `strtod(p, &end)`: result value and unconsumed suffix. -/
def strtodWithEnd (cs0 : List Char) : MDouble × List Char :=
  let cs1 := cs0.dropWhile isSpaceChar
  let (neg, cs2) : Bool × List Char :=
    match cs1 with
    | '-' :: rest => (true, rest)
    | '+' :: rest => (false, rest)
    | _ => (false, cs1)
  match strtodScanMag cs2 with
  | some (v, rest) => (if neg then v.neg else v, rest)
  | none => (.finite 0, cs0)

/-- `strtod(p, NULL)`. -/
def strtod (s : String) : MDouble := (strtodWithEnd s.data).1

/-! ## Coercions (`src/runtime.c`) -/

/-- `mjs_to_boolean` (`src/runtime.c:235`). -/
def mjs_to_boolean : MValue → Bool
  | .undefined => false
  | .null => false
  | .boolean b => b
  | .number .nan => false
  | .number .posInf => true
  | .number .negInf => true
  | .number (.finite q) => q != 0
  | .string s => s.length > 0
  | .object _ => true
  | .function _ => true
  | .array _ => true
  | _ => false

/-- `mjs_to_number` (`src/runtime.c:255`).  The string arm returns `0.0`
for the empty string and otherwise calls `strtod(data, NULL)` directly —
the comment in the source marks it `TODO: Implement proper string to
number conversion`. -/
def mjs_to_number : MValue → MDouble
  | .undefined => .nan
  | .null => .finite 0
  | .boolean b => .finite (if b then 1 else 0)
  | .number n => n
  | .string s => if s.length = 0 then .finite 0 else strtod s
  | _ => .nan

/-- `mjs_to_string` (`src/runtime.c:276`). -/
def mjs_to_string : MValue → String
  | .undefined => "undefined"
  | .null => "null"
  | .boolean b => if b then "true" else "false"
  | .number n => n.toDisplay
  | .string s => s
  | .object _ => "[object Object]"
  | .function _ => "[object Function]"
  | .array _ => "[object Array]"
  | _ => ""

/-- `mjs_string_to_number` (string-management unit, lines 305-338):
exact special tokens, then leading-whitespace skip, `strtod` with end
pointer, trailing-whitespace skip, and NaN whenever the input is not
consumed entirely. -/
def mjs_string_to_number (s : String) : MDouble :=
  if s.length = 0 then .finite 0
  else if s = "NaN" then .nan
  else if s = "Infinity" then .posInf
  else if s = "-Infinity" then .negInf
  else
    let start := s.data.dropWhile isSpaceChar
    let (v, rest) := strtodWithEnd start
    let rest2 := rest.dropWhile isSpaceChar
    if rest2 = [] then v else .nan

/-! ## String comparison (string-management unit) -/

/-- `memcmp` on equal-length byte runs: sign of the first differing
byte pair. -/
def memcmpChars : List Char → List Char → Int
  | [], _ => 0
  | _, [] => 0
  | a :: as, b :: bs =>
    if a = b then memcmpChars as bs else (a.toNat : Int) - (b.toNat : Int)

/-- `mjs_string_compare`: `NULL` ordering, then length difference, then
`memcmp`.  (The C casts the `size_t` length difference to `int`; only
the zero test is ever used, and the zero sets agree.) -/
def mjs_string_compare : Option String → Option String → Int
  | none, none => 0
  | none, some _ => -1
  | some _, none => 1
  | some a, some b =>
    if a.length ≠ b.length then (a.length : Int) - (b.length : Int)
    else memcmpChars a.data b.data

/-! ## VM value helpers (`vm.c`) -/

/-- `vm_add` (`vm.c:629`).  When either operand is a string the source
coerces both sides with `mjs_to_string`, then — per its own comment
`For now, just return undefined for string concatenation /
TODO: Implement proper string concatenation` — discards the strings and
returns undefined.  Otherwise it adds the numeric coercions. -/
def vm_add (a b : MValue) : MValue :=
  if mjs_is_string a || mjs_is_string b then
    MValue.undefined
  else
    .number ((mjs_to_number a).add (mjs_to_number b))

/-- `vm_subtract`. -/
def vm_subtract (a b : MValue) : MValue :=
  .number ((mjs_to_number a).add (mjs_to_number b).neg)

/-- `vm_equals` (`vm.c:695`): strict equality.  Note the heap-reference
arm compares `mjs_get_object` of both sides for objects, arrays *and*
functions. -/
def vm_equals (a b : MValue) : Bool :=
  if mjs_get_type a ≠ mjs_get_type b then false
  else
    match mjs_get_type a with
    | .undefined => true
    | .null => true
    | .boolean => mjs_get_boolean a = mjs_get_boolean b
    | .number => (mjs_get_number a).ceq (mjs_get_number b)
    | .string => mjs_string_compare (mjs_get_string a) (mjs_get_string b) = 0
    | .object => mjs_get_object a = mjs_get_object b
    | .array => mjs_get_object a = mjs_get_object b
    | .function => mjs_get_object a = mjs_get_object b
    | _ => false

/-! ## Properties and objects (object-management unit, `README.md` of the
repository snapshot) -/

/-- `mjs_property_t`.  The key is a heap string or `NULL`; here it is
embedded by its byte data because every lookup in the object unit goes
through `MJS_STREQ(prop->key->data, key)`. -/
structure MProperty where
  key : Option String
  value : MValue
  writable : Bool
  enumerable : Bool
  configurable : Bool
deriving DecidableEq, Repr

/-- `mjs_object_t` (the fields the claims touch). -/
structure MObject where
  properties : List MProperty
  prototype : Option Nat
  extensible : Bool
  property_count : Nat
deriving DecidableEq, Repr

/-- `mjs_object_get_property`: first property in the chain whose key is
non-`NULL` and byte-equal to `key`. -/
def mjs_object_get_property (obj : MObject) (key : String) : Option MProperty :=
  obj.properties.find? (fun p => p.key = some key)

/-- `mjs_object_get_property_value`. -/
def mjs_object_get_property_value (obj : MObject) (key : String) : MValue :=
  match mjs_object_get_property obj key with
  | some p => p.value
  | none => .undefined

/-- Helper for the update arm of `mjs_object_set_property`: overwrite the
value of the first matching property when it is writable. -/
def setFirstMatch : List MProperty → String → MValue → List MProperty
  | [], _, _ => []
  | p :: rest, key, v =>
    if p.key = some key then
      (if p.writable then { p with value := v } else p) :: rest
    else p :: setFirstMatch rest key v

/-- `mjs_object_set_property` (object-management unit, lines 242-269).
An existing property is updated in place when writable.  A missing
property is freshly allocated and prepended — with `prop->key = NULL;
// TODO: Create string from key`, i.e. `key := none` here. -/
def mjs_object_set_property (obj : MObject) (key : String) (v : MValue) : MObject :=
  match mjs_object_get_property obj key with
  | some _ => { obj with properties := setFirstMatch obj.properties key v }
  | none =>
    let p : MProperty :=
      { key := none, value := v, writable := true,
        enumerable := true, configurable := true }
    { obj with properties := p :: obj.properties,
               property_count := obj.property_count + 1 }

/-- `mjs_result_t` (`mikojs.h`), plus the bare `MJS_ERROR` constant of
`mikojs_internal.h` used by the VM (numerically it aliases
`MJS_ERROR_SYNTAX = -1`; no claim compares the two). -/
inductive MjsResult where
  | ok | errSyntax | errRuntime | errMemory | errType | errReference | errRange
  | err
deriving DecidableEq, Repr

/-- Helper for the redefine arm of `mjs_object_define_property`:
overwrite value and all three attributes of the first matching
property. -/
def redefineFirst (props : List MProperty) (key : String) (v : MValue)
    (w e c : Bool) : List MProperty :=
  match props with
  | [] => []
  | p :: rest =>
    if p.key = some key then
      { p with value := v, writable := w, enumerable := e, configurable := c } :: rest
    else p :: redefineFirst rest key v w e c

/-- `mjs_object_define_property` (object-management unit, lines
308-350): refuses non-extensible objects, refuses redefining a
non-configurable property, otherwise updates in place or prepends a
property carrying a real key string. -/
def mjs_object_define_property (obj : MObject) (key : String) (v : MValue)
    (w e c : Bool) : MjsResult × MObject :=
  if !obj.extensible then (.errType, obj)
  else
    match mjs_object_get_property obj key with
    | some p =>
      if !p.configurable then (.errType, obj)
      else (.ok, { obj with properties := redefineFirst obj.properties key v w e c })
    | none =>
      let p : MProperty :=
        { key := some key, value := v, writable := w,
          enumerable := e, configurable := c }
      (.ok, { obj with properties := p :: obj.properties,
                       property_count := obj.property_count + 1 })

/-! ## Context variables (`src/runtime.c:431-489`)

The context's global bindings are the property chain of the global
object; `mjs_context_get_variable` / `mjs_context_set_variable`
manipulate that chain directly (and, unlike `mjs_object_set_property`,
create fresh properties with a real key string). -/

/-- `mjs_context_get_variable`: scan the global chain for a property
with a non-`NULL` key equal to `name`. -/
def mjs_context_get_variable (globals : List MProperty) (name : String) :
    Option MValue :=
  match globals.find? (fun p => p.key = some name) with
  | some p => some p.value
  | none => none

/-- Helper for `mjs_context_set_variable`: overwrite the value of the
first matching binding (the source does not consult `writable` here). -/
def storeFirstMatch : List MProperty → String → MValue → List MProperty
  | [], _, _ => []
  | p :: rest, key, v =>
    if p.key = some key then { p with value := v } :: rest
    else p :: storeFirstMatch rest key v

/-- `mjs_context_set_variable`: overwrite the first matching binding,
else prepend a fresh writable/enumerable/configurable property keyed by
`name`. -/
def mjs_context_set_variable (globals : List MProperty) (name : String)
    (v : MValue) : List MProperty :=
  match globals.find? (fun p => p.key = some name) with
  | some _ => storeFirstMatch globals name v
  | none =>
    { key := some name, value := v, writable := true,
      enumerable := true, configurable := true } :: globals

/-! ## Bytecode and VM (`vm.h`, `vm.c`)

The opcode type below carries the opcodes the claims exercise (the full
enum in `vm.h` lists many more, all of which fall into the dispatch
switch's `default: return false` arm exactly as the four `PUSH_*`
opcodes below do). -/

/-- The embedded fragment of `mjs_opcode_t`. -/
inductive Opcode where
  | NOP
  | PUSH_UNDEFINED | PUSH_NULL | PUSH_TRUE | PUSH_FALSE
  | POP | DUP | SWAP
  | LOAD_CONST | LOAD_VAR | STORE_VAR
  | ADD | SUB
  | EQ | NE
  | JUMP | JUMP_IF_TRUE | JUMP_IF_FALSE
  | RETURN
deriving DecidableEq, Repr

/-- `mjs_instruction_t` with the `u32` view of its operand.  `Nat`
stands in for `uint32_t`; every operand the compiler or the claims
produce is far below `2^32`. -/
structure Instruction where
  opcode : Opcode
  operand : Nat
deriving DecidableEq, Repr

/-- `mjs_bytecode_t`: instruction buffer, constant pool and string pool
(pool strings embedded by their byte data). -/
structure Bytecode where
  instructions : List Instruction
  constants : List MValue
  strings : List String
deriving DecidableEq, Repr

/-- `mjs_call_frame_t`. -/
structure Frame where
  bytecode : Bytecode
  pc : Nat
  locals_base : Nat
  this_value : MValue
deriving DecidableEq, Repr

/-- The VM lifecycle constants `VM_STATE_READY / RUNNING / ERROR`. -/
inductive VMLifecycle where
  | ready | running | error
deriving DecidableEq, Repr

/-- `VM_STACK_SIZE` (`vm.c:37`). -/
def VM_STACK_SIZE : Nat := 1024

/-- `VM_CALL_STACK_SIZE` (`vm.c:38`). -/
def VM_CALL_STACK_SIZE : Nat := 256

/-- `mjs_vm_t` restricted to what dispatch reads and writes.  Both
stacks are lists with the most recently pushed entry at the head (the C
arrays index their tops at `top - 1`).  `globals` is the property chain
of the owning context's global object, reached through
`mjs_context_get_variable` / `mjs_context_set_variable`. -/
structure VM where
  stack : List MValue
  frames : List Frame
  state : VMLifecycle
  globals : List MProperty
deriving DecidableEq, Repr

/-- `vm_push`: fails (returns false) when the operand stack is full. -/
def vm_push (vm : VM) (v : MValue) : Option VM :=
  if vm.stack.length ≥ VM_STACK_SIZE then none
  else some { vm with stack := v :: vm.stack }

/-- `vm_pop`: yields `undefined` — and leaves the stack alone — when the
stack is empty; no error is signalled. -/
def vm_pop (vm : VM) : MValue × VM :=
  match vm.stack with
  | [] => (.undefined, vm)
  | v :: rest => (v, { vm with stack := rest })

/-- `vm_peek`. -/
def vm_peek (vm : VM) (offset : Nat) : MValue :=
  match vm.stack.get? offset with
  | some v => v
  | none => .undefined

/-- `vm_push_frame`: fails when the call stack is full.  `locals_base`
is `stack_top - locals_count` as in the source. -/
def vm_push_frame (vm : VM) (bc : Bytecode) (locals_count : Nat) : Option VM :=
  if vm.frames.length ≥ VM_CALL_STACK_SIZE then none
  else some { vm with frames :=
    { bytecode := bc, pc := 0,
      locals_base := vm.stack.length - locals_count,
      this_value := .undefined } :: vm.frames }

/-- `vm_execute_instruction` (`vm.c:220`): `none` models `return false`,
which the dispatch loop converts into `VM_STATE_ERROR`.  Every arm is a
direct transcription of the corresponding `case`; opcodes outside the
transcribed switch fall into `default: return false`. -/
def vm_execute_instruction (vm : VM) (instr : Instruction) : Option VM :=
  match vm.frames with
  | [] => none
  | frame :: restFrames =>
    match instr.opcode with
    | .NOP => some vm
    | .LOAD_CONST =>
      if h : instr.operand < frame.bytecode.constants.length then
        vm_push vm (frame.bytecode.constants.get ⟨instr.operand, h⟩)
      else none
    | .LOAD_VAR =>
      if h : instr.operand < frame.bytecode.strings.length then
        let name := frame.bytecode.strings.get ⟨instr.operand, h⟩
        match mjs_context_get_variable vm.globals name with
        | some v => vm_push vm v
        | none => vm_push vm .undefined
      else none
    | .STORE_VAR =>
      if h : instr.operand < frame.bytecode.strings.length then
        let name := frame.bytecode.strings.get ⟨instr.operand, h⟩
        let (v, vm1) := vm_pop vm
        some { vm1 with globals := mjs_context_set_variable vm1.globals name v }
      else none
    | .POP =>
      let (_, vm1) := vm_pop vm
      some vm1
    | .DUP => vm_push vm (vm_peek vm 0)
    | .SWAP =>
      if vm.stack.length < 2 then none
      else
        let (a, vm1) := vm_pop vm
        let (b, vm2) := vm_pop vm1
        match vm_push vm2 a with
        | none => some vm2
        | some vm3 =>
          match vm_push vm3 b with
          | none => some vm3
          | some vm4 => some vm4
    | .ADD =>
      let (b, vm1) := vm_pop vm
      let (a, vm2) := vm_pop vm1
      vm_push vm2 (vm_add a b)
    | .SUB =>
      let (b, vm1) := vm_pop vm
      let (a, vm2) := vm_pop vm1
      vm_push vm2 (vm_subtract a b)
    | .EQ =>
      let (b, vm1) := vm_pop vm
      let (a, vm2) := vm_pop vm1
      vm_push vm2 (.boolean (vm_equals a b))
    | .NE =>
      let (b, vm1) := vm_pop vm
      let (a, vm2) := vm_pop vm1
      vm_push vm2 (.boolean (!vm_equals a b))
    | .JUMP =>
      some { vm with frames := { frame with pc := instr.operand } :: restFrames }
    | .JUMP_IF_TRUE =>
      let (cond, vm1) := vm_pop vm
      if mjs_to_boolean cond then
        some { vm1 with frames :=
          match vm1.frames with
          | [] => []
          | f :: fs => { f with pc := instr.operand } :: fs }
      else some vm1
    | .JUMP_IF_FALSE =>
      let (cond, vm1) := vm_pop vm
      if !mjs_to_boolean cond then
        some { vm1 with frames :=
          match vm1.frames with
          | [] => []
          | f :: fs => { f with pc := instr.operand } :: fs }
      else some vm1
    | .RETURN =>
      let (rv, vm1) := vm_pop vm
      match vm1.frames with
      | [] => none
      | _ :: fs => vm_push { vm1 with frames := fs } rv
    | _ => none

/-- The dispatch loop body of `mjs_vm_execute` (`vm.c:186-203`),
fuel-indexed: `none` means the fuel ran out (the C loop simply keeps
going; every theorem below supplies enough fuel).  On a failed
instruction the loop sets `VM_STATE_ERROR` and returns `MJS_ERROR`
immediately; on normal exit it restores `VM_STATE_READY`. -/
def vmLoop : Nat → VM → Option (MjsResult × VM)
  | 0, _ => none
  | fuel + 1, vm =>
    if vm.state = .running then
      match vm.frames with
      | [] => some (.ok, { vm with state := .ready })
      | frame :: restFrames =>
        if frame.pc ≥ frame.bytecode.instructions.length then
          vmLoop fuel { vm with frames := restFrames }
        else
          match frame.bytecode.instructions.get? frame.pc with
          | none => some (.ok, { vm with state := .ready })
          | some instr =>
            let vm1 : VM :=
              { vm with frames := { frame with pc := frame.pc + 1 } :: restFrames }
            match vm_execute_instruction vm1 instr with
            | none => some (.err, { vm1 with state := .error })
            | some vm2 => vmLoop fuel vm2
    else some (.ok, { vm with state := .ready })

/-- `mjs_vm_execute` (`vm.c:174`): push the initial frame, run the
dispatch loop, and on normal exit report the topmost stack value (or
`undefined` for an empty stack).  The result slot stays unwritten
(`none`) on the `MJS_ERROR` paths, as in the source. -/
def mjs_vm_execute (fuel : Nat) (vm0 : VM) (bc : Bytecode) :
    Option (MjsResult × VM × Option MValue) :=
  match vm_push_frame vm0 bc 0 with
  | none => some (.err, vm0, none)
  | some vm1 =>
    match vmLoop fuel { vm1 with state := .running } with
    | none => none
    | some (.err, vmE) => some (.err, vmE, none)
    | some (code, vmF) =>
      let res := if vmF.stack.length > 0 then vm_peek vmF 0 else .undefined
      some (code, vmF, some res)

/-- `mjs_eval` (`src/runtime.c:492`): after the argument checks the body
is `*result = mjs_undefined(); return MJS_OK;` — the source's comment
states that a full implementation *would* parse, compile and execute,
but this one does not. -/
def mjs_eval (source filename : String) : MjsResult × MValue :=
  (.ok, .undefined)

/-! ## Bytecode construction and the compiler (`vm.c`, `src/compiler.c`)

The compiler fragment below is the expression path of
`mjs_compile_ast`: literals, identifiers, binary expressions and
assignments to identifiers.  Statements and the remaining expression
forms are not needed by any claim; the transcription of each embedded
case is direct. -/

/-- `mjs_bytecode_emit` (capacity growth elided; the buffer is a list). -/
def mjs_bytecode_emit (bc : Bytecode) (instr : Instruction) : Bytecode :=
  { bc with instructions := bc.instructions ++ [instr] }

/-- `mjs_bytecode_add_constant`: append, return the new index. -/
def mjs_bytecode_add_constant (bc : Bytecode) (v : MValue) : Bytecode × Nat :=
  ({ bc with constants := bc.constants ++ [v] }, bc.constants.length)

/-- `mjs_bytecode_add_string`: linear-scan dedup on byte equality, else
append and return the new index. -/
def mjs_bytecode_add_string (bc : Bytecode) (s : String) : Bytecode × Nat :=
  match bc.strings.indexOf? s with
  | some i => (bc, i)
  | none => ({ bc with strings := bc.strings ++ [s] }, bc.strings.length)

/-- The binary operators of the embedded compiler fragment
(`mjs_token_type_t` values dispatched in `compile_binary_expression`). -/
inductive BinOp where
  | plus | minus | eq | ne
deriving DecidableEq, Repr

/-- The embedded fragment of `mjs_ast_node_t`: the literal kinds,
identifiers, binary expressions and identifier assignments. -/
inductive Ast where
  | literalNumber : MDouble → Ast
  | literalString : String → Ast
  | literalBoolean : Bool → Ast
  | literalNull : Ast
  | literalUndefined : Ast
  | identifier : String → Ast
  | binary : BinOp → Ast → Ast → Ast
  | assignIdent : String → Ast → Ast
deriving DecidableEq, Repr

/-- The opcode `compile_binary_expression` emits for each operator. -/
def binOpOpcode : BinOp → Opcode
  | .plus => .ADD
  | .minus => .SUB
  | .eq => .EQ
  | .ne => .NE

/-- `compile_expression` / `compile_literal` / `compile_identifier` /
`compile_binary_expression` / `compile_assignment_expression`
(`src/compiler.c`).  `none` models a compiler error.  Note the string
literal arm (`src/compiler.c:262-264`): the literal's bytes are added to
the *string* pool, and the returned string-pool index becomes the
operand of an `OP_LOAD_CONST` instruction — which the VM resolves
against the *constant* pool. -/
def compile_expression (bc : Bytecode) : Ast → Option Bytecode
  | .literalNumber n =>
    let (bc1, idx) := mjs_bytecode_add_constant bc (.number n)
    some (mjs_bytecode_emit bc1 ⟨.LOAD_CONST, idx⟩)
  | .literalString s =>
    let (bc1, idx) := mjs_bytecode_add_string bc s
    some (mjs_bytecode_emit bc1 ⟨.LOAD_CONST, idx⟩)
  | .literalBoolean b =>
    some (mjs_bytecode_emit bc ⟨if b then .PUSH_TRUE else .PUSH_FALSE, 0⟩)
  | .literalNull => some (mjs_bytecode_emit bc ⟨.PUSH_NULL, 0⟩)
  | .literalUndefined => some (mjs_bytecode_emit bc ⟨.PUSH_UNDEFINED, 0⟩)
  | .identifier name =>
    let (bc1, idx) := mjs_bytecode_add_string bc name
    some (mjs_bytecode_emit bc1 ⟨.LOAD_VAR, idx⟩)
  | .binary op l r => do
    let bc1 ← compile_expression bc l
    let bc2 ← compile_expression bc1 r
    some (mjs_bytecode_emit bc2 ⟨binOpOpcode op, 0⟩)
  | .assignIdent name rhs => do
    let bc1 ← compile_expression bc rhs
    let (bc2, idx) := mjs_bytecode_add_string bc1 name
    some (mjs_bytecode_emit bc2 ⟨.STORE_VAR, idx⟩)

/-- The empty bytecode block produced by `mjs_bytecode_new`. -/
def emptyBytecode : Bytecode := { instructions := [], constants := [], strings := [] }

/-- `mjs_compile_ast` (`src/compiler.c:91`), expression path: compile
the node, then append the final `OP_RETURN`. -/
def mjs_compile_ast (ast : Ast) : Option Bytecode :=
  match compile_expression emptyBytecode ast with
  | none => none
  | some bc => some (mjs_bytecode_emit bc ⟨.RETURN, 0⟩)

/-- The pool-bounds invariant the specification states for bytecode
blocks, written against the pools the VM dispatch actually consults:
`LOAD_CONST` operands must index the constant pool, `LOAD_VAR` and
`STORE_VAR` operands the string pool. -/
def instrPoolOK (bc : Bytecode) (instr : Instruction) : Bool :=
  match instr.opcode with
  | .LOAD_CONST => instr.operand < bc.constants.length
  | .LOAD_VAR => instr.operand < bc.strings.length
  | .STORE_VAR => instr.operand < bc.strings.length
  | _ => true

/-- All instructions of a block satisfy the pool-bounds invariant. -/
def poolBoundsOK (bc : Bytecode) : Bool :=
  bc.instructions.all (instrPoolOK bc)

/-! ## String interning (string-management unit, lines 67-88) -/

/-- An interned `mjs_string_t`: its heap identity and its byte data. -/
structure InternedString where
  id : Nat
  data : String
deriving DecidableEq, Repr

/-- The runtime's intern table `runtime->string_table`, a chain with the
most recently interned string at the head.  `nextId` models the
allocator handing out fresh heap identities. -/
structure StringTable where
  entries : List InternedString
  nextId : Nat
deriving DecidableEq, Repr

/-- The chain scan of `mjs_string_intern`: first entry whose length and
bytes match (`current->length == length && memcmp(...) == 0`, i.e. byte
equality of the data). -/
def chainLookup : List InternedString → String → Option InternedString
  | [], _ => none
  | e :: rest, s => if e.data = s then some e else chainLookup rest s

/-- `mjs_string_intern`: return the existing chain entry on byte
equality; otherwise allocate a fresh string (`mjs_string_new`; the
out-of-memory path is outside this embedding), mark it interned and
prepend it to the chain. -/
def mjs_string_intern (t : StringTable) (s : String) :
    InternedString × StringTable :=
  match chainLookup t.entries s with
  | some e => (e, t)
  | none =>
    let e : InternedString := { id := t.nextId, data := s }
    (e, { entries := e :: t.entries, nextId := t.nextId + 1 })

/-- A sequence of later intern calls (for arbitrary byte sequences) on
the same runtime. -/
def internMany (t : StringTable) : List String → StringTable
  | [] => t
  | u :: us => internMany (mjs_string_intern t u).2 us

/-! ## Garbage collector: marking (GC unit, `gc_mark_object`,
lines 739-818) -/

/-- The tri-colour mark field of `mjs_gc_object_header_t`. -/
inductive GCColor where
  | white | gray | black
deriving DecidableEq, Repr

/-- A property as the GC sees it: the key is a heap string reference
(or `NULL`), the value a tagged `mjs_value_t`. -/
structure GCProp where
  key : Option Nat
  value : MValue
deriving DecidableEq, Repr

/-- Payload of one heap allocation, per `GC_TYPE_*` tag.  A function
carries its name string, its closure scope object and its bytecode's
constant pool, matching `mjs_function_t`. -/
inductive GCObjData where
  | str : String → GCObjData
  | obj : List GCProp → Option Nat → GCObjData
  | arr : List MValue → GCObjData
  | fn : Option Nat → Option Nat → List MValue → GCObjData
deriving DecidableEq, Repr

/-- The heap: allocation `i` lives at index `i`; its mark colour lives
at index `i` of the separate mark list. -/
abbrev GCHeap := List GCObjData

/-- `gc_mark_object` (GC unit, lines 739-818), fuel-indexed (the C
recursion terminates because a revisited object is no longer white; the
fuel only serves Lean's termination checker and every theorem supplies
enough).  The grey stack is elided: the source pushes the header, marks
all children recursively in the same call, and blackens the header
before returning, so the stack's later pop finds a non-white header and
returns immediately.  Children marked per type, exactly as the source:
a string has none; an object marks its prototype and each property's
key (the property *values* sit under `TODO: Mark property value`); an
array marks nothing (`TODO: Mark array element`); a function marks only
its name (`TODO: Implement closure marking`, and the constant pool is
never visited). -/
def gc_mark_object (heap : GCHeap) : Nat → List GCColor → Option Nat → List GCColor
  | _, marks, none => marks
  | 0, marks, some _ => marks
  | fuel + 1, marks, some r =>
    match marks.get? r with
    | none => marks
    | some c =>
      if c ≠ .white then marks
      else
        let m1 := marks.set r .gray
        let m2 :=
          match heap.get? r with
          | some (.str _) => m1
          | some (.obj props proto) =>
            let mp := gc_mark_object heap fuel m1 proto
            props.foldl (fun m (p : GCProp) => gc_mark_object heap fuel m p.key) mp
          | some (.arr _) => m1
          | some (.fn name _ _) => gc_mark_object heap fuel m1 name
          | none => m1
        m2.set r .black

/-! ## Garbage collector: sweeping and weak references (GC unit,
`gc_sweep` lines 821-908, `mjs_gc_create_weak_ref` lines 977-993) -/

/-- `mjs_weak_ref_t` restricted to the fields `gc_sweep` and creation
touch: the target (or `NULL` once cleared), whether a callback function
is registered (non-`NULL`), and the `cleared` flag (written at creation,
never read). -/
structure WeakRef where
  object : Option Nat
  callback : Bool
  cleared : Bool
deriving DecidableEq, Repr

/-- The state `gc_sweep` walks: the shared mark list, the two
generation lists (object references, list head = chain head) and the
weak-reference chain. -/
structure GCSweepState where
  marks : List GCColor
  young : List Nat
  old : List Nat
  weakRefs : List WeakRef
deriving DecidableEq, Repr

/-- One generation's sweep loop: unlink white objects, reset every
survivor's mark to white for the next collection. -/
def sweepGenList : List Nat → List GCColor → List Nat × List GCColor
  | [], marks => ([], marks)
  | i :: rest, marks =>
    if marks.get? i = some .white then sweepGenList rest marks
    else
      let marks1 := marks.set i .white
      let (rest1, marks2) := sweepGenList rest marks1
      (i :: rest1, marks2)

/-- The weak-reference pass at the end of `gc_sweep`: a reference whose
target's header is white is cleared and its callback (if any) fires;
references with no target are unlinked.  Returns the surviving chain
and the number of callbacks fired. -/
def sweepWeakRefs : List WeakRef → List GCColor → List WeakRef × Nat
  | [], _ => ([], 0)
  | w :: rest, marks =>
    let (w1, fired) : WeakRef × Nat :=
      match w.object with
      | some i =>
        if marks.get? i = some .white then
          ({ w with object := none }, if w.callback then 1 else 0)
        else (w, 0)
      | none => (w, 0)
    let (rest1, firedRest) := sweepWeakRefs rest marks
    if w1.object = none then (rest1, fired + firedRest)
    else (w1 :: rest1, fired + firedRest)

/-- `gc_sweep` (GC unit, lines 821-908): sweep the young generation,
then the old generation — both passes reset every survivor's mark to
white — and only *then* process the weak-reference chain against the
(now uniformly white) marks. -/
def gc_sweep (st : GCSweepState) : GCSweepState × Nat :=
  let (young1, m1) := sweepGenList st.young st.marks
  let (old1, m2) := sweepGenList st.old m1
  let (weak1, fired) := sweepWeakRefs st.weakRefs m2
  ({ marks := m2, young := young1, old := old1, weakRefs := weak1 }, fired)

/-- `mjs_gc_create_weak_ref` (GC unit, lines 977-993): the public
creation API takes *no* callback argument and initialises
`weak_ref->callback = NULL` (no other function in the unit ever sets
it); the new reference is prepended to the chain. -/
def mjs_gc_create_weak_ref (weakRefs : List WeakRef) (target : Nat) :
    WeakRef × List WeakRef :=
  let w : WeakRef := { object := some target, callback := false, cleared := false }
  (w, w :: weakRefs)

/-- `mjs_weak_ref_get`. -/
def mjs_weak_ref_get (w : WeakRef) : Option Nat := w.object

/-! ## Claim theorems -/

/-- A freshly created VM (`mjs_vm_new`): empty stacks, `READY` state,
and an empty global property chain. -/
def vmFresh : VM := { stack := [], frames := [], state := .ready, globals := [] }

/-- C1: the claim states `mjs_eval` parses, compiles and executes the
source, with `var x = 2 + 3 * 4; x` yielding the number 14.  The
function as implemented returns `MJS_OK` with `undefined` for every
source string — it is a stub that performs none of the three steps — so
the end-to-end scenario produces `undefined`, not 14. -/
theorem c1_mjs_eval_stub_returns_undefined :
    mjs_eval "var x = 2 + 3 * 4; x" "script.js" = (.ok, .undefined)
    ∧ MValue.undefined ≠ MValue.number (.finite 14) := by
  exact ⟨rfl, by decide⟩

/-- C2: the claim states `OP_ADD` with a string operand concatenates,
with `"5" + 1` producing the string `"51"`.  The string branch of
`vm_add` discards both coerced strings and returns `undefined`, so the
`OP_ADD` handler pushes `undefined` instead of `"51"`. -/
theorem c2_vm_add_string_branch_undefined :
    vm_add (.string "5") (.number (.finite 1)) = .undefined
    ∧ MValue.undefined ≠ MValue.string "51" := by
  exact ⟨rfl, by decide⟩

/-- C3: the claim states two arrays (or two functions) are `OP_EQ`-equal
exactly when they reference the same heap object.  Because `vm_equals`
compares `mjs_get_object` of both sides — which is `NULL` for every
non-object tag — two *distinct* arrays compare equal, as do two distinct
functions.  (The object arm, where the tag really is `MJS_TAG_OBJECT`,
does compare references.) -/
theorem c3_vm_equals_distinct_arrays_equal :
    vm_equals (.array 0) (.array 1) = true
    ∧ vm_equals (.function 0) (.function 1) = true
    ∧ vm_equals (.object 0) (.object 1) = false := by
  exact ⟨rfl, rfl, rfl⟩

/-- C4: the claim states the marker enqueues, for an object, each
property's key *and value*, for an array every element, and for a
function its name, closure scope and constant-pool values.  Marking the
object at reference 0 — whose single property has key string 1 and whose
value references object 2 — blackens the key but leaves the value's
target white; marking the function at reference 0 of the second heap —
name string 1, closure scope object 2, one constant referencing object
3 — blackens only the name. -/
theorem c4_gc_mark_skips_values_scope_and_pool :
    gc_mark_object [.obj [⟨some 1, .object 2⟩] none, .str "key", .obj [] none] 10
        [.white, .white, .white] (some 0) = [.black, .black, .white]
    ∧ gc_mark_object [.fn (some 1) (some 2) [.object 3], .str "f",
          .obj [] none, .obj [] none] 10
        [.white, .white, .white, .white] (some 0)
      = [.black, .black, .white, .white] := by
  exact ⟨by decide, by decide⟩

/-- C5: the claim states a weak-ref handle yields its target while the
target is reachable, clearing only when a sweep proves it unreachable,
with the creation-registered callback firing then.  In the source (a)
`mjs_gc_create_weak_ref` accepts no callback and stores `NULL`, and (b)
`gc_sweep` resets every *surviving* object's mark to white before the
weak-reference pass, so a reference whose target was marked black — and
which survives the sweep in the young generation — is still cleared and
unlinked, with no callback ever firing. -/
theorem c5_weak_ref_cleared_despite_live_target :
    mjs_gc_create_weak_ref [] 0
      = ({ object := some 0, callback := false, cleared := false },
         [{ object := some 0, callback := false, cleared := false }])
    ∧ gc_sweep { marks := [.black], young := [0], old := [],
                 weakRefs := [{ object := some 0, callback := false, cleared := false }] }
      = ({ marks := [.white], young := [0], old := [], weakRefs := [] }, 0) := by
  exact ⟨rfl, by decide⟩

/-- C6 counterexample: the claim states that popping an operand from an
empty operand stack sets the VM state to error and halts dispatch.
Executing the one-instruction program `OP_POP` on a fresh VM — a pop
from an empty stack — runs to completion: `vm_pop` silently yields
`undefined`, the loop exits normally, the result code is `MJS_OK`, the
final state is `READY`, and the reported result is `undefined`. -/
theorem c6_counterexample_underflow_not_a_fault :
    (mjs_vm_execute 8 vmFresh { instructions := [⟨.POP, 0⟩], constants := [], strings := [] }).map
        (fun r => (r.1, r.2.1.state, r.2.2))
      = some (.ok, .ready, some .undefined) := by
  rfl

/-- The frame `vm_push_frame vm bc 0` constructs (a proof-local
abbreviation, equal by definition to what the source builds). -/
def initFrame (vm : VM) (bc : Bytecode) : Frame :=
  { bytecode := bc, pc := 0, locals_base := vm.stack.length - 0,
    this_value := .undefined }

/-- `vm_push_frame` on an empty call stack succeeds and pushes the
initial frame. -/
theorem vm_push_frame_nil (vm : VM) (bc : Bytecode) (h : vm.frames = []) :
    vm_push_frame vm bc 0 = some { vm with frames := [initFrame vm bc] } := by
  unfold vm_push_frame
  rw [h]
  rfl

/-- One dispatch step that fails: the loop marks the VM `error` and
returns `MJS_ERROR` at once. -/
theorem vmLoop_fault (k : Nat) (vm : VM) (f : Frame) (rest : List Frame)
    (instr : Instruction)
    (hfr : vm.frames = f :: rest)
    (hst : vm.state = .running)
    (hget : f.bytecode.instructions.get? f.pc = some instr)
    (hfail : vm_execute_instruction
        { vm with frames := { f with pc := f.pc + 1 } :: rest } instr = none) :
    vmLoop (k + 1) vm
      = some (.err, { vm with frames := { f with pc := f.pc + 1 } :: rest,
                              state := .error }) := by
  have hlt : f.pc < f.bytecode.instructions.length := by
    by_contra hc
    rw [List.get?_eq_none.mpr (by omega)] at hget
    cases hget
  unfold vmLoop
  rw [if_pos hst, hfr]
  dsimp only
  rw [if_neg (Nat.not_le.mpr hlt), hget]
  dsimp only
  rw [hfail]

/-- C6 amended: referencing a pool index that is out of range for the
current bytecode block sets the VM state to error and halts dispatch
(shown here for `OP_LOAD_CONST` against the constant pool, the fault
the claim's sources cite); popping from an empty operand stack, by
contrast, is not a fault — `vm_pop` returns `undefined` and dispatch
continues. -/
theorem c6_amended_oob_pool_index_faults (bc : Bytecode) (i fuel : Nat) (vm0 : VM)
    (hframes : vm0.frames = [])
    (hinstr : bc.instructions.get? 0 = some ⟨.LOAD_CONST, i⟩)
    (hoob : bc.constants.length ≤ i)
    (hfuel : 1 ≤ fuel) :
    (mjs_vm_execute fuel vm0 bc).map (fun r => (r.1, r.2.1.state, r.2.2))
      = some (.err, .error, none) := by
  cases fuel with
  | zero => omega
  | succ k =>
    unfold mjs_vm_execute
    rw [vm_push_frame_nil vm0 bc hframes]
    dsimp only
    rw [vmLoop_fault k _ (initFrame vm0 bc) [] ⟨.LOAD_CONST, i⟩ rfl rfl
      (by simpa [initFrame] using hinstr)
      (by
        unfold vm_execute_instruction
        dsimp only [initFrame]
        rw [dif_neg (by omega)])]
    rfl

/-- C6 witness for the amended theorem: the fault at a concrete block —
one `LOAD_CONST 5` instruction over an empty constant pool. -/
theorem c6_amended_witness :
    (mjs_vm_execute 1 vmFresh
        { instructions := [⟨.LOAD_CONST, 5⟩], constants := [], strings := [] }).map
        (fun r => (r.1, r.2.1.state, r.2.2))
      = some (.err, .error, none) :=
  c6_amended_oob_pool_index_faults
    { instructions := [⟨.LOAD_CONST, 5⟩], constants := [], strings := [] }
    5 1 vmFresh rfl rfl (by decide) (by decide)

/-- C7: the claim states every operand index of every compiled block is
in bounds for its pool, string literals included.  Compiling the string
literal `"hi"` puts the literal's bytes in the *string* pool and emits
`LOAD_CONST` with that string-pool index — but `LOAD_CONST` operands are
resolved against the *constant* pool, which stays empty, so the block
violates the invariant (and faults the moment the VM executes it). -/
theorem c7_string_literal_breaks_pool_bounds :
    mjs_compile_ast (.literalString "hi")
      = some { instructions := [⟨.LOAD_CONST, 0⟩, ⟨.RETURN, 0⟩],
               constants := [], strings := ["hi"] }
    ∧ poolBoundsOK { instructions := [⟨.LOAD_CONST, 0⟩, ⟨.RETURN, 0⟩],
                     constants := [], strings := ["hi"] } = false := by
  exact ⟨rfl, rfl⟩

/-- C8: the claim states string-to-number conversion trims whitespace,
accepts the `Infinity`/`NaN` tokens, and yields NaN when the string does
not parse.  The conversion the engine actually uses, `mjs_to_number`,
calls `strtod(data, NULL)` with no end-pointer check, so an unparsable
string yields `0.0`, not NaN — while the unused helper
`mjs_string_to_number` implements exactly the claimed behaviour. -/
theorem c8_to_number_yields_zero_not_nan :
    mjs_to_number (.string "abc") = .finite 0
    ∧ mjs_string_to_number "abc" = .nan
    ∧ MDouble.finite 0 ≠ MDouble.nan := by
  refine ⟨by decide, by decide, by decide⟩

/-- After interning `s`, the chain scan for `s` finds exactly the
returned handle — whether it was already present (first match) or was
freshly prepended. -/
theorem chainLookup_after_intern (t : StringTable) (s : String) :
    chainLookup ((mjs_string_intern t s).2).entries s
      = some (mjs_string_intern t s).1 := by
  unfold mjs_string_intern
  cases h : chainLookup t.entries s with
  | some e => simp [h]
  | none => simp [h, chainLookup]

/-- An intern call on which the chain scan succeeds returns the found
handle and leaves the table untouched. -/
theorem intern_of_found (t : StringTable) (s : String) (e : InternedString)
    (h : chainLookup t.entries s = some e) :
    mjs_string_intern t s = (e, t) := by
  unfold mjs_string_intern
  rw [h]

/-- Interning any byte sequence `u` preserves what the chain scan finds
for `s`: a found `u` leaves the chain alone, and a fresh `u` is only
prepended when no `u`-entry existed, so a prepended head can never
shadow an existing `s`-entry. -/
theorem chainLookup_preserved (t : StringTable) (s u : String)
    (e : InternedString) (h : chainLookup t.entries s = some e) :
    chainLookup ((mjs_string_intern t u).2).entries s = some e := by
  unfold mjs_string_intern
  cases hu : chainLookup t.entries u with
  | some f => simpa [hu]
  | none =>
    by_cases hus : u = s
    · subst hus
      rw [h] at hu
      cases hu
    · simpa [hu, chainLookup, hus]

/-- The scan result for `s` survives any sequence of later intern
calls. -/
theorem chainLookup_internMany (s : String) (e : InternedString) :
    ∀ (others : List String) (t : StringTable),
      chainLookup t.entries s = some e →
      chainLookup (internMany t others).entries s = some e := by
  intro others
  induction others with
  | nil => intro t h; simpa [internMany]
  | cons u us ih =>
    intro t h
    exact ih _ (chainLookup_preserved t s u e h)

/-- C9: interning `s` leaves the chain able to find the returned handle
by byte equality; an immediate re-intern is idempotent (same handle,
table unchanged); and after any sequence of further intern calls on the
same runtime, interning `s` again still returns the identical handle. -/
theorem c9_intern_idempotent_identity (t : StringTable) (s : String)
    (others : List String) :
    chainLookup ((mjs_string_intern t s).2).entries s
        = some (mjs_string_intern t s).1
    ∧ mjs_string_intern (mjs_string_intern t s).2 s
        = ((mjs_string_intern t s).1, (mjs_string_intern t s).2)
    ∧ (mjs_string_intern (internMany (mjs_string_intern t s).2 others) s).1
        = (mjs_string_intern t s).1 := by
  have h1 := chainLookup_after_intern t s
  refine ⟨h1, intern_of_found _ s _ h1, ?_⟩
  have h2 := chainLookup_internMany s _ others _ h1
  rw [intern_of_found _ s _ h2]

/-- C9 witness: the identity at a concrete run — intern `"hello"` into
an empty runtime table, intern three other strings (one of them
`"hello"` again), and re-intern `"hello"`. -/
theorem c9_intern_witness :
    (mjs_string_intern
        (internMany (mjs_string_intern ⟨[], 0⟩ "hello").2 ["a", "hello", "b"])
        "hello").1
      = (mjs_string_intern ⟨[], 0⟩ "hello").1 :=
  (c9_intern_idempotent_identity ⟨[], 0⟩ "hello" ["a", "hello", "b"]).2.2

/-- Updating the first matching writable property rewrites exactly the
entry the chain scan would have found. -/
theorem find?_setFirstMatch (props : List MProperty) (k : String) (v : MValue)
    (p : MProperty)
    (hfind : props.find? (fun q => q.key = some k) = some p)
    (hw : p.writable = true) :
    (setFirstMatch props k v).find? (fun q => q.key = some k)
      = some { p with value := v } := by
  induction props with
  | nil => simp at hfind
  | cons q rest ih =>
    by_cases hq : q.key = some k
    · have hpq : q = p := by simpa [List.find?, hq] using hfind
      subst hpq
      simp [setFirstMatch, hq, hw, List.find?]
    · have hfind2 : rest.find? (fun q => q.key = some k) = some p := by
        simpa [List.find?, hq] using hfind
      simp [setFirstMatch, hq, List.find?, ih hfind2]

/-- A property whose key is `NULL` is invisible to the chain scan. -/
theorem find?_prepend_null_key (props : List MProperty) (k : String) (v : MValue) :
    (({ key := none, value := v, writable := true, enumerable := true,
        configurable := true } : MProperty) :: props).find?
        (fun q => q.key = some k)
      = props.find? (fun q => q.key = some k) := by
  simp [List.find?]

/-- C10: on an already-present writable property,
`mjs_object_set_property` followed by `mjs_object_get_property_value`
round-trips to the stored value; but on a fresh key it inserts a
property whose key field is `NULL`, so the subsequent get still returns
`undefined` — and creating a retrievable fresh property requires
`mjs_object_define_property`, which stores a real key. -/
theorem c10_set_property_fresh_key_is_null (obj : MObject) (k : String) (v : MValue) :
    (∀ p : MProperty, mjs_object_get_property obj k = some p → p.writable = true →
        mjs_object_get_property_value (mjs_object_set_property obj k v) k = v)
    ∧ (mjs_object_get_property obj k = none →
        (mjs_object_set_property obj k v).properties.head?
            = some { key := none, value := v, writable := true,
                     enumerable := true, configurable := true }
        ∧ mjs_object_get_property_value (mjs_object_set_property obj k v) k
            = .undefined)
    ∧ (obj.extensible = true → mjs_object_get_property obj k = none →
        (mjs_object_define_property obj k v true true true).1 = .ok
        ∧ mjs_object_get_property_value
            ((mjs_object_define_property obj k v true true true).2) k = v) := by
  refine ⟨?_, ?_, ?_⟩
  · intro p hp hw
    unfold mjs_object_set_property
    rw [hp]
    unfold mjs_object_get_property_value mjs_object_get_property
    unfold mjs_object_get_property at hp
    rw [find?_setFirstMatch obj.properties k v p hp hw]
  · intro hp
    unfold mjs_object_set_property
    rw [hp]
    refine ⟨rfl, ?_⟩
    unfold mjs_object_get_property_value mjs_object_get_property
    unfold mjs_object_get_property at hp
    rw [find?_prepend_null_key, hp]
  · intro hext hp
    unfold mjs_object_define_property
    rw [hp, hext]
    refine ⟨rfl, ?_⟩
    unfold mjs_object_get_property_value mjs_object_get_property
    simp [List.find?]

/-- C10 witness: on a fresh extensible object, setting `“x”` and reading
it back yields `undefined`, while defining `“x”` succeeds. -/
theorem c10_witness :
    mjs_object_get_property_value
        (mjs_object_set_property ⟨[], none, true, 0⟩ "x" (.number (.finite 7))) "x"
      = .undefined
    ∧ (mjs_object_define_property ⟨[], none, true, 0⟩ "x"
        (.number (.finite 7)) true true true).1 = .ok :=
  ⟨((c10_set_property_fresh_key_is_null ⟨[], none, true, 0⟩ "x"
      (.number (.finite 7))).2.1 rfl).2,
   ((c10_set_property_fresh_key_is_null ⟨[], none, true, 0⟩ "x"
      (.number (.finite 7))).2.2 rfl rfl).1⟩

end MikoJS
